import Mathlib

/-!
Verification of the RGB-core state value model (`src/contract/data.rs`):
the `Revealed` tagged union of primitive state values, its canonical strict
encoding and decoding, encoding-based equality and ordering, and the
hash-based concealment (`CommitConceal`) producing the `Confidential`
digest.  The `Confidential` type is declared as a newtype of bitcoin
`sha256d::Hash` (double SHA-256, 32 bytes); the security-analysis comment
above that declaration and the regression vectors of the in-file test
module instead describe the 20-byte bitcoin hash160 (SHA-256 followed by
RIPEMD-160) — both constructions are defined below and the divergence is
settled in the C1/C8 theorems.

Machine integers are modelled as `Nat` / `Int` with explicit bounds;
byte strings as `List Nat` of values below 256; floating-point payloads
by their IEEE bit patterns (the code in `data.rs` only ever touches the
bit patterns: encoding, comparison and hashing all go through
`to_bits`-based little-endian serialization).
-/

namespace RgbCore

/-- Reduce a machine word to 32 bits (`x mod 2^32`). -/
def w32 (x : Nat) : Nat := x % 4294967296

/-- Little-endian byte decomposition: `n` bytes of `x` (as `u*::to_le_bytes`). -/
def toLE : Nat → Nat → List Nat
  | 0, _ => []
  | n + 1, x => x % 256 :: toLE n (x / 256)

/-- Big-endian byte decomposition: `n` bytes of `x`. -/
def toBE (n x : Nat) : List Nat := (toLE n x).reverse

/-- Little-endian byte recomposition (as `u*::from_le_bytes`). -/
def fromLE : List Nat → Nat
  | [] => 0
  | b :: bs => b + 256 * fromLE bs

/-- Big-endian byte recomposition. -/
def fromBE (l : List Nat) : Nat := fromLE l.reverse

/-- Split a list into consecutive chunks of `n` elements (last may be
short), with explicit fuel to keep the recursion structural. -/
def chunksFuel : Nat → Nat → List Nat → List (List Nat)
  | 0, _, _ => []
  | _, _, [] => []
  | fuel + 1, n, l => l.take n :: chunksFuel fuel n (l.drop n)

/-- Split a list into consecutive chunks of `n` elements (last may be
short); for `n > 0` the list length is enough fuel. -/
def chunks (n : Nat) (l : List Nat) : List (List Nat) := chunksFuel l.length n l

/-- Group a byte list into 32-bit words, big-endian per word. -/
def words32BE (l : List Nat) : List Nat := (chunks 4 l).map fromBE

/-- Group a byte list into 32-bit words, little-endian per word. -/
def words32LE (l : List Nat) : List Nat := (chunks 4 l).map fromLE

/-- Rotate a 32-bit word left by `n` (0 < n < 32). -/
def rotl32 (n x : Nat) : Nat := w32 ((x <<< n) ||| (x >>> (32 - n)))

/-- Rotate a 32-bit word right by `n` (0 < n < 32). -/
def rotr32 (n x : Nat) : Nat := w32 ((x >>> n) ||| (x <<< (32 - n)))

/-! ### SHA-256 (FIPS 180-4), first stage of the bitcoin hash160 -/

/-- SHA-256 choose function. -/
def shaCh (x y z : Nat) : Nat := (x &&& y) ^^^ ((x ^^^ 4294967295) &&& z)

/-- SHA-256 majority function. -/
def shaMaj (x y z : Nat) : Nat := (x &&& y) ^^^ (x &&& z) ^^^ (y &&& z)

/-- SHA-256 big sigma 0. -/
def bigSigma0 (x : Nat) : Nat := rotr32 2 x ^^^ rotr32 13 x ^^^ rotr32 22 x

/-- SHA-256 big sigma 1. -/
def bigSigma1 (x : Nat) : Nat := rotr32 6 x ^^^ rotr32 11 x ^^^ rotr32 25 x

/-- SHA-256 small sigma 0. -/
def smallSigma0 (x : Nat) : Nat := rotr32 7 x ^^^ rotr32 18 x ^^^ (x >>> 3)

/-- SHA-256 small sigma 1. -/
def smallSigma1 (x : Nat) : Nat := rotr32 17 x ^^^ rotr32 19 x ^^^ (x >>> 10)

/-- SHA-256 round constants. -/
def sha256K : List Nat :=
  [1116352408, 1899447441, 3049323471, 3921009573, 961987163,
   1508970993, 2453635748, 2870763221, 3624381080, 310598401,
   607225278, 1426881987, 1925078388, 2162078206, 2614888103,
   3248222580, 3835390401, 4022224774, 264347078, 604807628,
   770255983, 1249150122, 1555081692, 1996064986, 2554220882,
   2821834349, 2952996808, 3210313671, 3336571891, 3584528711,
   113926993, 338241895, 666307205, 773529912, 1294757372,
   1396182291, 1695183700, 1986661051, 2177026350, 2456956037,
   2730485921, 2820302411, 3259730800, 3345764771, 3516065817,
   3600352804, 4094571909, 275423344, 430227734, 506948616,
   659060556, 883997877, 958139571, 1322822218, 1537002063,
   1747873779, 1955562222, 2024104815, 2227730452, 2361852424,
   2428436474, 2756734187, 3204031479, 3329325298]

/-- Working state of the SHA-256 compression function. -/
structure Sha256State where
  a : Nat
  b : Nat
  c : Nat
  d : Nat
  e : Nat
  f : Nat
  g : Nat
  h : Nat
deriving Repr, DecidableEq

/-- SHA-256 initial hash value. -/
def sha256Init : Sha256State :=
  ⟨1779033703, 3144134277, 1013904242, 2773480762,
   1359893119, 2600822924, 528734635, 1541459225⟩

/-- Extend a 16-word schedule by `k` more words. -/
def sha256ExtendAux : Nat → List Nat → List Nat
  | 0, ws => ws
  | k + 1, ws =>
      let len := ws.length
      let wNew := w32 (smallSigma1 (ws.getD (len - 2) 0) + ws.getD (len - 7) 0 +
                       smallSigma0 (ws.getD (len - 15) 0) + ws.getD (len - 16) 0)
      sha256ExtendAux k (ws ++ [wNew])

/-- Message schedule of a 64-byte block: 64 32-bit words. -/
def sha256Schedule (block : List Nat) : List Nat :=
  sha256ExtendAux 48 (words32BE block)

/-- One SHA-256 round with constant and schedule word `kw`. -/
def sha256Round (st : Sha256State) (kw : Nat × Nat) : Sha256State :=
  let t1 := w32 (st.h + bigSigma1 st.e + shaCh st.e st.f st.g + kw.1 + kw.2)
  let t2 := w32 (bigSigma0 st.a + shaMaj st.a st.b st.c)
  ⟨w32 (t1 + t2), st.a, st.b, st.c, w32 (st.d + t1), st.e, st.f, st.g⟩

/-- SHA-256 compression of one 64-byte block. -/
def sha256Compress (st : Sha256State) (block : List Nat) : Sha256State :=
  let ws := sha256Schedule block
  let fin := (sha256K.zip ws).foldl sha256Round st
  ⟨w32 (st.a + fin.a), w32 (st.b + fin.b), w32 (st.c + fin.c), w32 (st.d + fin.d),
   w32 (st.e + fin.e), w32 (st.f + fin.f), w32 (st.g + fin.g), w32 (st.h + fin.h)⟩

/-- Merkle-Damgard padding with a big-endian 64-bit bit-length. -/
def sha256Pad (msg : List Nat) : List Nat :=
  msg ++ 0x80 :: (List.replicate ((119 - msg.length % 64) % 64) 0 ++ toBE 8 (8 * msg.length))

/-- SHA-256 digest (32 bytes) of a byte message. -/
def sha256 (msg : List Nat) : List Nat :=
  let st := (chunks 64 (sha256Pad msg)).foldl sha256Compress sha256Init
  toBE 4 st.a ++ toBE 4 st.b ++ toBE 4 st.c ++ toBE 4 st.d ++
  toBE 4 st.e ++ toBE 4 st.f ++ toBE 4 st.g ++ toBE 4 st.h

/-! ### RIPEMD-160, second stage of the bitcoin hash160 -/

/-- RIPEMD-160 selection function for step `j`. -/
def ripemdF (j x y z : Nat) : Nat :=
  if j < 16 then x ^^^ y ^^^ z
  else if j < 32 then (x &&& y) ||| ((x ^^^ 4294967295) &&& z)
  else if j < 48 then (x ||| (y ^^^ 4294967295)) ^^^ z
  else if j < 64 then (x &&& z) ||| (y &&& (z ^^^ 4294967295))
  else x ^^^ (y ||| (z ^^^ 4294967295))

/-- RIPEMD-160 left-lane round constants. -/
def ripemdKL (j : Nat) : Nat :=
  if j < 16 then 0 else if j < 32 then 0x5a827999 else if j < 48 then 0x6ed9eba1
  else if j < 64 then 0x8f1bbcdc else 0xa953fd4e

/-- RIPEMD-160 right-lane round constants. -/
def ripemdKR (j : Nat) : Nat :=
  if j < 16 then 0x50a28be6 else if j < 32 then 0x5c4dd124 else if j < 48 then 0x6d703ef3
  else if j < 64 then 0x7a6d76e9 else 0

/-- RIPEMD-160 left-lane message word order. -/
def ripemdRL : List Nat :=
  [0, 1, 2, 3, 4, 5, 6, 7, 8, 9, 10, 11, 12, 13, 14, 15,
   7, 4, 13, 1, 10, 6, 15, 3, 12, 0, 9, 5, 2, 14, 11, 8,
   3, 10, 14, 4, 9, 15, 8, 1, 2, 7, 0, 6, 13, 11, 5, 12,
   1, 9, 11, 10, 0, 8, 12, 4, 13, 3, 7, 15, 14, 5, 6, 2,
   4, 0, 5, 9, 7, 12, 2, 10, 14, 1, 3, 8, 11, 6, 15, 13]

/-- RIPEMD-160 right-lane message word order. -/
def ripemdRR : List Nat :=
  [5, 14, 7, 0, 9, 2, 11, 4, 13, 6, 15, 8, 1, 10, 3, 12,
   6, 11, 3, 7, 0, 13, 5, 10, 14, 15, 8, 12, 4, 9, 1, 2,
   15, 5, 1, 3, 7, 14, 6, 9, 11, 8, 12, 2, 10, 0, 4, 13,
   8, 6, 4, 1, 3, 11, 15, 0, 5, 12, 2, 13, 9, 7, 10, 14,
   12, 15, 10, 4, 1, 5, 8, 7, 6, 2, 13, 14, 0, 3, 9, 11]

/-- RIPEMD-160 left-lane rotation amounts. -/
def ripemdSL : List Nat :=
  [11, 14, 15, 12, 5, 8, 7, 9, 11, 13, 14, 15, 6, 7, 9, 8,
   7, 6, 8, 13, 11, 9, 7, 15, 7, 12, 15, 9, 11, 7, 13, 12,
   11, 13, 6, 7, 14, 9, 13, 15, 14, 8, 13, 6, 5, 12, 7, 5,
   11, 12, 14, 15, 14, 15, 9, 8, 9, 14, 5, 6, 8, 6, 5, 12,
   9, 15, 5, 11, 6, 8, 13, 12, 5, 12, 13, 14, 11, 8, 5, 6]

/-- RIPEMD-160 right-lane rotation amounts. -/
def ripemdSR : List Nat :=
  [8, 9, 9, 11, 13, 15, 15, 5, 7, 7, 8, 11, 14, 14, 12, 6,
   9, 13, 15, 7, 12, 8, 9, 11, 7, 7, 12, 7, 6, 15, 13, 11,
   9, 7, 15, 11, 8, 6, 6, 14, 12, 13, 5, 14, 13, 13, 7, 5,
   15, 5, 8, 11, 14, 14, 6, 14, 6, 9, 12, 9, 12, 5, 15, 8,
   8, 5, 12, 9, 12, 5, 14, 6, 8, 13, 6, 5, 15, 13, 11, 11]

/-- One lane (five 32-bit registers) of the RIPEMD-160 compression. -/
structure RmdLane where
  a : Nat
  b : Nat
  c : Nat
  d : Nat
  e : Nat
deriving Repr, DecidableEq

/-- Chaining state of RIPEMD-160. -/
structure Ripemd160State where
  h0 : Nat
  h1 : Nat
  h2 : Nat
  h3 : Nat
  h4 : Nat
deriving Repr, DecidableEq

/-- RIPEMD-160 initial chaining value. -/
def ripemd160Init : Ripemd160State :=
  ⟨0x67452301, 0xefcdab89, 0x98badcfe, 0x10325476, 0xc3d2e1f0⟩

/-- One RIPEMD-160 step `j` of the left (`isRight = false`) or right lane
over message words `xw`. -/
def ripemdRound (xw : List Nat) (isRight : Bool) (st : RmdLane) (j : Nat) : RmdLane :=
  let ri := (if isRight then ripemdRR else ripemdRL).getD j 0
  let si := (if isRight then ripemdSR else ripemdSL).getD j 0
  let fj := if isRight then ripemdF (79 - j) st.b st.c st.d else ripemdF j st.b st.c st.d
  let k := if isRight then ripemdKR j else ripemdKL j
  let t := w32 (rotl32 si (w32 (st.a + fj + xw.getD ri 0 + k)) + st.e)
  ⟨st.e, t, st.b, rotl32 10 st.c, st.d⟩

/-- RIPEMD-160 compression of one 64-byte block. -/
def ripemd160Compress (st : Ripemd160State) (block : List Nat) : Ripemd160State :=
  let xw := words32LE block
  let start : RmdLane := ⟨st.h0, st.h1, st.h2, st.h3, st.h4⟩
  let l := (List.range 80).foldl (ripemdRound xw false) start
  let r := (List.range 80).foldl (ripemdRound xw true) start
  ⟨w32 (st.h1 + l.c + r.d), w32 (st.h2 + l.d + r.e), w32 (st.h3 + l.e + r.a),
   w32 (st.h4 + l.a + r.b), w32 (st.h0 + l.b + r.c)⟩

/-- Merkle-Damgard padding with a little-endian 64-bit bit-length. -/
def ripemd160Pad (msg : List Nat) : List Nat :=
  msg ++ 0x80 :: (List.replicate ((119 - msg.length % 64) % 64) 0 ++ toLE 8 (8 * msg.length))

/-- RIPEMD-160 digest (20 bytes) of a byte message. -/
def ripemd160 (msg : List Nat) : List Nat :=
  let st := (chunks 64 (ripemd160Pad msg)).foldl ripemd160Compress ripemd160Init
  toLE 4 st.h0 ++ toLE 4 st.h1 ++ toLE 4 st.h2 ++ toLE 4 st.h3 ++ toLE 4 st.h4

/-- The hash producing the `Confidential` digest of `data.rs`.  The type
is declared as a newtype of bitcoin `sha256d::Hash` — double SHA-256, a
32-byte digest — so `Confidential::hash(data)` computes
`sha256(sha256(data))`.  Note that the security-analysis comment sitting
directly above the declaration instead describes the 20-byte bitcoin
hash160 construction, and the `*_CONCEALED` regression vectors of the
in-file test module encode hash160 digests; the declared type computes
neither — see `hash160` and the C1/C8 divergence theorems. -/
def confidentialHash (data : List Nat) : List Nat := sha256 (sha256 data)

/-- The construction that the security-analysis comment of `data.rs`, the
in-file `*_CONCEALED` regression vectors and the spec describe for the
`Confidential` digest: bitcoin hash160, SHA-256 followed by RIPEMD-160,
yielding 20 bytes.  Defined from those words for comparison only — the
declared `sha256d`-based `Confidential` type does not compute it. -/
def hash160 (data : List Nat) : List Nat := ripemd160 (sha256 data)

/-! ### The Void state (`pub struct Void();`) -/

/-- Void (absent) state: a unit struct with no fields. -/
structure Void where
deriving Repr, DecidableEq

/-- CommitConceal for `Void`: the code returns `self.clone()` — the value
itself, of concealed-commitment type `Void`. -/
def voidCommitConceal (v : Void) : Void := v

/-- CommitEncode for `Void`: writes nothing (returns length 0); the
written byte sequence is empty. -/
def voidCommitEncode (_ : Void) : List Nat := []

/-- Strict encoding of the field-less struct `Void`: it has no fields, so
its derived canonical encoding is the empty byte string. -/
def voidStrictSerialize (_ : Void) : List Nat := []

/-! ### The `Revealed` tagged union

Payloads: unsigned integers as `Nat`, signed integers as `Int`,
floating-point formats by their IEEE bit pattern as `Nat` (bfloat16 and
IEEE half / single / double / x87-extended / quad / oct), byte blobs,
ASCII strings and UTF-8 strings as byte lists. -/

/-- The `Revealed` enum of `data.rs`, one constructor per variant. -/
inductive Revealed where
  | U8 (v : Nat)
  | U16 (v : Nat)
  | U32 (v : Nat)
  | U64 (v : Nat)
  | U128 (v : Nat)
  | U256 (v : Nat)
  | U512 (v : Nat)
  | U1024 (v : Nat)
  | I8 (v : Int)
  | I16 (v : Int)
  | I32 (v : Int)
  | I64 (v : Int)
  | I128 (v : Int)
  | I256 (v : Int)
  | I512 (v : Int)
  | I1024 (v : Int)
  | F16B (v : Nat)
  | F16 (v : Nat)
  | F32 (v : Nat)
  | F64 (v : Nat)
  | F80 (v : Nat)
  | F128 (v : Nat)
  | F256 (v : Nat)
  | Bytes (v : List Nat)
  | AsciiString (v : List Nat)
  | UnicodeString (v : List Nat)
deriving Repr, DecidableEq

/-- Is `b` a UTF-8 continuation byte? -/
def isCont (b : Nat) : Bool := 0x80 ≤ b && b < 0xC0

/-- One step of the UTF-8 validation automaton.  States: 0 = at a
character boundary; 1/2/3 = that many generic continuation bytes still
expected; 4 = right after `E0` (continuation restricted to `A0..BF`);
5 = right after `ED` (restricted to `80..9F`, excluding surrogates);
6 = right after `F0` (restricted to `90..BF`); 7 = right after `F4`
(restricted to `80..8F`, capping at U+10FFFF).  Returns `none` on an
invalid byte. -/
def utf8Step (st b : Nat) : Option Nat :=
  if st = 0 then
    if b < 0x80 then some 0
    else if b < 0xC2 then none
    else if b < 0xE0 then some 1
    else if b = 0xE0 then some 4
    else if b = 0xED then some 5
    else if b < 0xF0 then some 2
    else if b = 0xF0 then some 6
    else if b < 0xF4 then some 3
    else if b = 0xF4 then some 7
    else none
  else if st = 1 then if isCont b then some 0 else none
  else if st = 2 then if isCont b then some 1 else none
  else if st = 3 then if isCont b then some 2 else none
  else if st = 4 then if 0xA0 ≤ b && b < 0xC0 then some 1 else none
  else if st = 5 then if 0x80 ≤ b && b < 0xA0 then some 1 else none
  else if st = 6 then if 0x90 ≤ b && b < 0xC0 then some 2 else none
  else if st = 7 then if 0x80 ≤ b && b < 0x90 then some 2 else none
  else none

/-- Run the UTF-8 validation automaton from state `st`. -/
def utf8ValidAux : Nat → List Nat → Bool
  | st, [] => st = 0
  | st, b :: rest =>
    match utf8Step st b with
    | some st2 => utf8ValidAux st2 rest
    | none => false

/-- UTF-8 validity of a byte sequence (shortest-form, surrogate-free,
up to U+10FFFF — the invariant of a Rust `String`). -/
def utf8Valid (l : List Nat) : Bool := utf8ValidAux 0 l

/-- Representability: the range invariants the Rust payload types carry
(`u8` holds values below 2^8, `i8` values in [-2^7, 2^7), float payloads
are bit patterns of the format width, `Vec<u8>` holds bytes, a stens
`AsciiString` holds 7-bit characters, a `String` holds valid UTF-8). -/
def wf : Revealed → Prop
  | .U8 v => v < 2 ^ 8
  | .U16 v => v < 2 ^ 16
  | .U32 v => v < 2 ^ 32
  | .U64 v => v < 2 ^ 64
  | .U128 v => v < 2 ^ 128
  | .U256 v => v < 2 ^ 256
  | .U512 v => v < 2 ^ 512
  | .U1024 v => v < 2 ^ 1024
  | .I8 v => -(2 ^ 7) ≤ v ∧ v < 2 ^ 7
  | .I16 v => -(2 ^ 15) ≤ v ∧ v < 2 ^ 15
  | .I32 v => -(2 ^ 31) ≤ v ∧ v < 2 ^ 31
  | .I64 v => -(2 ^ 63) ≤ v ∧ v < 2 ^ 63
  | .I128 v => -(2 ^ 127) ≤ v ∧ v < 2 ^ 127
  | .I256 v => -(2 ^ 255) ≤ v ∧ v < 2 ^ 255
  | .I512 v => -(2 ^ 511) ≤ v ∧ v < 2 ^ 511
  | .I1024 v => -(2 ^ 1023) ≤ v ∧ v < 2 ^ 1023
  | .F16B v => v < 2 ^ 16
  | .F16 v => v < 2 ^ 16
  | .F32 v => v < 2 ^ 32
  | .F64 v => v < 2 ^ 64
  | .F80 v => v < 2 ^ 80
  | .F128 v => v < 2 ^ 128
  | .F256 v => v < 2 ^ 256
  | .Bytes bs => (∀ b ∈ bs, b < 256) ∧ bs.length ≤ 0xFFFF
  | .AsciiString cs => (∀ c ∈ cs, c < 128) ∧ cs.length ≤ 0xFFFF
  | .UnicodeString us => utf8Valid us = true ∧ us.length ≤ 0xFFFF

/-- Twos-complement little-endian encoding of a signed integer into `n`
bytes (`i*::to_le_bytes`). -/
def toLEInt (n : Nat) (x : Int) : List Nat := toLE n ((x % ((2 : Int) ^ (8 * n))).toNat)

/-- Strict serialization of a `Revealed` value (`strict_serialize`): the
declared tag byte of the variant followed by the strict encoding of the payload.
Integers and float bit patterns are little-endian fixed width; byte
blobs and strings carry a little-endian `u16` length prefix and fail
(`Err(ExceedMaxItems)`, surfaced as `none`) when longer than `0xFFFF`. -/
def strictSerialize : Revealed → Option (List Nat)
  | .U8 v => some (0x00 :: toLE 1 v)
  | .U16 v => some (0x01 :: toLE 2 v)
  | .U32 v => some (0x02 :: toLE 4 v)
  | .U64 v => some (0x03 :: toLE 8 v)
  | .U128 v => some (0x04 :: toLE 16 v)
  | .U256 v => some (0x05 :: toLE 32 v)
  | .U512 v => some (0x06 :: toLE 64 v)
  | .U1024 v => some (0x07 :: toLE 128 v)
  | .I8 v => some (0x10 :: toLEInt 1 v)
  | .I16 v => some (0x11 :: toLEInt 2 v)
  | .I32 v => some (0x12 :: toLEInt 4 v)
  | .I64 v => some (0x13 :: toLEInt 8 v)
  | .I128 v => some (0x14 :: toLEInt 16 v)
  | .I256 v => some (0x15 :: toLEInt 32 v)
  | .I512 v => some (0x16 :: toLEInt 64 v)
  | .I1024 v => some (0x17 :: toLEInt 128 v)
  | .F16B v => some (0x30 :: toLE 2 v)
  | .F16 v => some (0x31 :: toLE 2 v)
  | .F32 v => some (0x32 :: toLE 4 v)
  | .F64 v => some (0x33 :: toLE 8 v)
  | .F80 v => some (0x34 :: toLE 10 v)
  | .F128 v => some (0x35 :: toLE 16 v)
  | .F256 v => some (0x36 :: toLE 32 v)
  | .Bytes bs =>
      if bs.length ≤ 0xFFFF then some (0xE0 :: (toLE 2 bs.length ++ bs)) else none
  | .AsciiString cs =>
      if cs.length ≤ 0xFFFF then some (0xEE :: (toLE 2 cs.length ++ cs)) else none
  | .UnicodeString us =>
      if us.length ≤ 0xFFFF then some (0xEF :: (toLE 2 us.length ++ us)) else none

/-! ### Strict decoding -/

/-- Decoding failures of the strict-encoding layer: unknown enum tag
(`EnumValueNotKnown`, the hard failure the derive emits for a tag byte
outside the registered set), truncated input (unexpected end of data),
a non-ASCII byte inside an `AsciiString`, invalid UTF-8 inside a
`String`, and left-over bytes at top level (`DataNotEntirelyConsumed`). -/
inductive DecodeError where
  | unknownTag (tag : Nat)
  | truncated
  | invalidAscii
  | invalidUtf8
  | dataNotConsumed
deriving Repr, DecidableEq

/-- Read exactly `n` bytes from the stream, failing on truncation. -/
def readBytes (n : Nat) (l : List Nat) : Except DecodeError (List Nat × List Nat) :=
  if n ≤ l.length then .ok (l.take n, l.drop n) else .error .truncated

/-- Twos-complement reading of a little-endian byte string
(`i*::from_le_bytes`). -/
def fromLEInt (l : List Nat) : Int :=
  let u := fromLE l
  if u < 2 ^ (8 * l.length - 1) then (u : Int) else (u : Int) - 2 ^ (8 * l.length)

/-- The registered tag bytes of the `Revealed` enum, as declared by its
`#[strict_encoding(value = ...)]` attributes. -/
def revealedTags : List Nat :=
  [0x00, 0x01, 0x02, 0x03, 0x04, 0x05, 0x06, 0x07,
   0x10, 0x11, 0x12, 0x13, 0x14, 0x15, 0x16, 0x17,
   0x30, 0x31, 0x32, 0x33, 0x34, 0x35, 0x36,
   0xE0, 0xEE, 0xEF]

/-- Strict decoding of a `Revealed` value from a byte stream: read the
tag byte, dispatch on the registered tag set, read the fixed-width or
length-prefixed payload, and return the value with the unread rest.
A tag byte outside the registered set is a hard `unknownTag` failure. -/
def strictDecode (l : List Nat) : Except DecodeError (Revealed × List Nat) :=
  match l with
  | [] => .error .truncated
  | tag :: rest =>
    if tag = 0x00 then do let (p, r) ← readBytes 1 rest; .ok (.U8 (fromLE p), r)
    else if tag = 0x01 then do let (p, r) ← readBytes 2 rest; .ok (.U16 (fromLE p), r)
    else if tag = 0x02 then do let (p, r) ← readBytes 4 rest; .ok (.U32 (fromLE p), r)
    else if tag = 0x03 then do let (p, r) ← readBytes 8 rest; .ok (.U64 (fromLE p), r)
    else if tag = 0x04 then do let (p, r) ← readBytes 16 rest; .ok (.U128 (fromLE p), r)
    else if tag = 0x05 then do let (p, r) ← readBytes 32 rest; .ok (.U256 (fromLE p), r)
    else if tag = 0x06 then do let (p, r) ← readBytes 64 rest; .ok (.U512 (fromLE p), r)
    else if tag = 0x07 then do let (p, r) ← readBytes 128 rest; .ok (.U1024 (fromLE p), r)
    else if tag = 0x10 then do let (p, r) ← readBytes 1 rest; .ok (.I8 (fromLEInt p), r)
    else if tag = 0x11 then do let (p, r) ← readBytes 2 rest; .ok (.I16 (fromLEInt p), r)
    else if tag = 0x12 then do let (p, r) ← readBytes 4 rest; .ok (.I32 (fromLEInt p), r)
    else if tag = 0x13 then do let (p, r) ← readBytes 8 rest; .ok (.I64 (fromLEInt p), r)
    else if tag = 0x14 then do let (p, r) ← readBytes 16 rest; .ok (.I128 (fromLEInt p), r)
    else if tag = 0x15 then do let (p, r) ← readBytes 32 rest; .ok (.I256 (fromLEInt p), r)
    else if tag = 0x16 then do let (p, r) ← readBytes 64 rest; .ok (.I512 (fromLEInt p), r)
    else if tag = 0x17 then do let (p, r) ← readBytes 128 rest; .ok (.I1024 (fromLEInt p), r)
    else if tag = 0x30 then do let (p, r) ← readBytes 2 rest; .ok (.F16B (fromLE p), r)
    else if tag = 0x31 then do let (p, r) ← readBytes 2 rest; .ok (.F16 (fromLE p), r)
    else if tag = 0x32 then do let (p, r) ← readBytes 4 rest; .ok (.F32 (fromLE p), r)
    else if tag = 0x33 then do let (p, r) ← readBytes 8 rest; .ok (.F64 (fromLE p), r)
    else if tag = 0x34 then do let (p, r) ← readBytes 10 rest; .ok (.F80 (fromLE p), r)
    else if tag = 0x35 then do let (p, r) ← readBytes 16 rest; .ok (.F128 (fromLE p), r)
    else if tag = 0x36 then do let (p, r) ← readBytes 32 rest; .ok (.F256 (fromLE p), r)
    else if tag = 0xE0 then do
      let (lp, r) ← readBytes 2 rest
      let (p, r2) ← readBytes (fromLE lp) r
      .ok (.Bytes p, r2)
    else if tag = 0xEE then do
      let (lp, r) ← readBytes 2 rest
      let (p, r2) ← readBytes (fromLE lp) r
      if p.all (· < 128) then .ok (.AsciiString p, r2) else .error .invalidAscii
    else if tag = 0xEF then do
      let (lp, r) ← readBytes 2 rest
      let (p, r2) ← readBytes (fromLE lp) r
      if utf8Valid p then .ok (.UnicodeString p, r2) else .error .invalidUtf8
    else .error (.unknownTag tag)

/-- Top-level strict deserialization (`strict_deserialize`): decode one
value and require the input to be entirely consumed. -/
def strictDeserialize (l : List Nat) : Except DecodeError Revealed :=
  match strictDecode l with
  | .ok (v, []) => .ok v
  | .ok (_, _ :: _) => .error .dataNotConsumed
  | .error e => .error e

/-! ### Equality, ordering and concealment of `Revealed`

Each of these re-serializes its arguments, mirroring the
`expect("Encoding of predefined data types must not fail")` call sites:
the outer `Option` is `none` exactly when a serialization would panic. -/

/-- Lexicographic comparison of byte strings — how Rust orders `Vec<u8>`
(elementwise, a strict prefix being smaller). -/
def lexCompare : List Nat → List Nat → Ordering
  | [], [] => .eq
  | [], _ :: _ => .lt
  | _ :: _, [] => .gt
  | a :: as, b :: bs => if a < b then .lt else if b < a then .gt else lexCompare as bs

/-- PartialEq for `Revealed`: serialize both sides and compare the bytes. -/
def revealedEq (a b : Revealed) : Option Bool := do
  let x ← strictSerialize a
  let y ← strictSerialize b
  pure (decide (x = y))

/-- PartialOrd for byte vectors: `u8` ordering is total, so the slice
comparison always returns a result. -/
def listPartialCmp (x y : List Nat) : Option Ordering := some (lexCompare x y)

/-- PartialOrd for `Revealed`: serialize both sides and compare the byte
vectors. -/
def revealedPartialCmp (a b : Revealed) : Option (Option Ordering) := do
  let x ← strictSerialize a
  let y ← strictSerialize b
  pure (listPartialCmp x y)

/-- Ord for `Revealed`: `partial_cmp` with an `unwrap_or_else` fallback
that re-serializes and compares the byte vectors directly. -/
def revealedCmp (a b : Revealed) : Option Ordering := do
  match ← revealedPartialCmp a b with
  | some o => pure o
  | none =>
      let x ← strictSerialize a
      let y ← strictSerialize b
      pure (lexCompare x y)

/-- CommitConceal for `Revealed`: `Confidential::hash` of the strict
serialization. -/
def commitConceal (v : Revealed) : Option (List Nat) :=
  (strictSerialize v).map confidentialHash

/-! ### Typed accessors of `Revealed` -/

/-- Accessor `Revealed::u8`. -/
def Revealed.u8 : Revealed → Option Nat
  | .U8 v => some v
  | _ => none

/-- Accessor `Revealed::u16`. -/
def Revealed.u16 : Revealed → Option Nat
  | .U16 v => some v
  | _ => none

/-- Accessor `Revealed::u32`. -/
def Revealed.u32 : Revealed → Option Nat
  | .U32 v => some v
  | _ => none

/-- Accessor `Revealed::u64`. -/
def Revealed.u64 : Revealed → Option Nat
  | .U64 v => some v
  | _ => none

/-- Accessor `Revealed::u128`. -/
def Revealed.u128 : Revealed → Option Nat
  | .U128 v => some v
  | _ => none

/-- Accessor `Revealed::u256`. -/
def Revealed.u256 : Revealed → Option Nat
  | .U256 v => some v
  | _ => none

/-- Accessor `Revealed::u512`. -/
def Revealed.u512 : Revealed → Option Nat
  | .U512 v => some v
  | _ => none

/-- Accessor `Revealed::u1024`. -/
def Revealed.u1024 : Revealed → Option Nat
  | .U1024 v => some v
  | _ => none

/-- Accessor `Revealed::i8`. -/
def Revealed.i8 : Revealed → Option Int
  | .I8 v => some v
  | _ => none

/-- Accessor `Revealed::i16`. -/
def Revealed.i16 : Revealed → Option Int
  | .I16 v => some v
  | _ => none

/-- Accessor `Revealed::i32`. -/
def Revealed.i32 : Revealed → Option Int
  | .I32 v => some v
  | _ => none

/-- Accessor `Revealed::i64`. -/
def Revealed.i64 : Revealed → Option Int
  | .I64 v => some v
  | _ => none

/-- Accessor `Revealed::i128`. -/
def Revealed.i128 : Revealed → Option Int
  | .I128 v => some v
  | _ => none

/-- Accessor `Revealed::i256`. -/
def Revealed.i256 : Revealed → Option Int
  | .I256 v => some v
  | _ => none

/-- Accessor `Revealed::i512`. -/
def Revealed.i512 : Revealed → Option Int
  | .I512 v => some v
  | _ => none

/-- Accessor `Revealed::i1024`. -/
def Revealed.i1024 : Revealed → Option Int
  | .I1024 v => some v
  | _ => none

/-- Accessor `Revealed::f16b`. -/
def Revealed.f16b : Revealed → Option Nat
  | .F16B v => some v
  | _ => none

/-- Accessor `Revealed::f16`. -/
def Revealed.f16 : Revealed → Option Nat
  | .F16 v => some v
  | _ => none

/-- Accessor `Revealed::f32`. -/
def Revealed.f32 : Revealed → Option Nat
  | .F32 v => some v
  | _ => none

/-- Accessor `Revealed::f64`. -/
def Revealed.f64 : Revealed → Option Nat
  | .F64 v => some v
  | _ => none

/-- Accessor `Revealed::f80`. -/
def Revealed.f80 : Revealed → Option Nat
  | .F80 v => some v
  | _ => none

/-- Accessor `Revealed::f128`. -/
def Revealed.f128 : Revealed → Option Nat
  | .F128 v => some v
  | _ => none

/-- Accessor `Revealed::f256`. -/
def Revealed.f256 : Revealed → Option Nat
  | .F256 v => some v
  | _ => none

/-- Accessor `Revealed::bytes`. -/
def Revealed.bytes : Revealed → Option (List Nat)
  | .Bytes v => some v
  | _ => none

/-- Accessor `Revealed::ascii_string`. -/
def Revealed.ascii_string : Revealed → Option (List Nat)
  | .AsciiString v => some v
  | _ => none

/-- Accessor `Revealed::unicode_string`. -/
def Revealed.unicode_string : Revealed → Option (List Nat)
  | .UnicodeString v => some v
  | _ => none

/-! ### Helper lemmas -/

theorem toLE_length (n x : Nat) : (toLE n x).length = n := by
  induction n generalizing x with
  | zero => rfl
  | succ n ih => simp [toLE, ih]

theorem fromLE_toLE (n x : Nat) (h : x < 2 ^ (8 * n)) : fromLE (toLE n x) = x := by
  induction n generalizing x with
  | zero =>
      simp only [toLE, fromLE]
      omega
  | succ n ih =>
      have hpow : 2 ^ (8 * (n + 1)) = 2 ^ (8 * n) * 256 := by
        rw [Nat.mul_succ, Nat.pow_add]
      have hdiv : x / 256 < 2 ^ (8 * n) := by
        rw [Nat.div_lt_iff_lt_mul (by norm_num : 0 < 256)]
        omega
      simp only [toLE, fromLE, ih (x / 256) hdiv]
      omega

theorem toLEInt_length (n : Nat) (x : Int) : (toLEInt n x).length = n := by
  simp [toLEInt, toLE_length]

theorem fromLEInt_toLEInt (n : Nat) (x : Int) (hn : 0 < n)
    (h1 : -(2 ^ (8 * n - 1)) ≤ x) (h2 : x < 2 ^ (8 * n - 1)) :
    fromLEInt (toLEInt n x) = x := by
  have hHM : (2 : Nat) ^ (8 * n) = 2 ^ (8 * n - 1) * 2 := by
    rw [← pow_succ]
    congr 1
    omega
  have hHI : ((2 : Nat) ^ (8 * n - 1) : Int) = (2 : Int) ^ (8 * n - 1) := by push_cast; ring
  have hMI : ((2 : Nat) ^ (8 * n) : Int) = (2 : Int) ^ (8 * n) := by push_cast; ring
  have hmpos : (0 : Int) < (2 : Int) ^ (8 * n) := by positivity
  have hq0 : 0 ≤ x % ((2 : Int) ^ (8 * n)) := Int.emod_nonneg x (by positivity)
  have hqlt : x % ((2 : Int) ^ (8 * n)) < (2 : Int) ^ (8 * n) := Int.emod_lt_of_pos x hmpos
  have hmod : x % ((2 : Int) ^ (8 * n)) = x ∨
      x % ((2 : Int) ^ (8 * n)) = x + (2 : Int) ^ (8 * n) := by
    rcases le_or_lt 0 x with hx | hx
    · left
      apply Int.emod_eq_of_lt hx
      calc x < ((2 : Nat) ^ (8 * n - 1) : Int) := by omega
        _ ≤ (2 : Int) ^ (8 * n) := by rw [hHI]; omega
    · right
      have hadd : (x + (2 : Int) ^ (8 * n)) % ((2 : Int) ^ (8 * n)) =
          x % ((2 : Int) ^ (8 * n)) := by
        have h := Int.add_mul_emod_self_left (a := x) (b := (2 : Int) ^ (8 * n)) (c := 1)
        simpa using h
      rw [← hadd]
      apply Int.emod_eq_of_lt (by omega) (by omega)
  simp only [fromLEInt, toLEInt, toLE_length]
  rw [fromLE_toLE n _ (by omega)]
  rcases hmod with hmod | hmod <;> rw [hmod] <;> split_ifs with hcond <;> omega

theorem ripemd160_length (msg : List Nat) : (ripemd160 msg).length = 20 := by
  simp [ripemd160, toLE_length]

theorem toBE_length (n x : Nat) : (toBE n x).length = n := by
  simp [toBE, toLE_length]

theorem sha256_length (msg : List Nat) : (sha256 msg).length = 32 := by
  simp [sha256, toBE_length]

theorem confidentialHash_length (data : List Nat) :
    (confidentialHash data).length = 32 := by
  simp [confidentialHash, sha256_length]

theorem hash160_length (data : List Nat) : (hash160 data).length = 20 := by
  simp [hash160, ripemd160_length]

theorem readBytesSplit (a b : List Nat) (n : Nat) (h : a.length = n) :
    readBytes n (a ++ b) = .ok (a, b) := by
  subst h
  simp [readBytes, List.take_left, List.drop_left]

theorem readBytes_all (a : List Nat) (n : Nat) (h : a.length = n) :
    readBytes n a = .ok (a, []) := by
  have := readBytesSplit a [] n h
  simpa using this

theorem lexCompare_eq_iff : ∀ x y : List Nat, lexCompare x y = .eq ↔ x = y := by
  intro x
  induction x with
  | nil =>
      intro y
      cases y <;> simp [lexCompare]
  | cons a as ih =>
      intro y
      cases y with
      | nil => simp [lexCompare]
      | cons b bs =>
          simp only [lexCompare, List.cons.injEq]
          rcases Nat.lt_trichotomy a b with h | h | h
          · rw [if_pos h]
            constructor
            · intro hc
              exact absurd hc (by decide)
            · intro hc
              exact absurd hc.1 (by omega)
          · subst h
            simp [lt_self_iff_false, ih]
          · rw [if_neg (by omega), if_pos h]
            constructor
            · intro hc
              exact absurd hc (by decide)
            · intro hc
              exact absurd hc.1 (by omega)

theorem lexCompare_swap : ∀ x y : List Nat, lexCompare y x = (lexCompare x y).swap := by
  intro x
  induction x with
  | nil =>
      intro y
      cases y <;> simp [lexCompare, Ordering.swap]
  | cons a as ih =>
      intro y
      cases y with
      | nil => simp [lexCompare, Ordering.swap]
      | cons b bs =>
          simp only [lexCompare]
          rcases Nat.lt_trichotomy a b with h | h | h
          · rw [if_pos h, if_neg (by omega), if_pos h]
            rfl
          · subst h
            simp [lt_self_iff_false, ih]
          · rw [if_pos h, if_neg (by omega), if_pos h]
            rfl

theorem lexCompare_trans_lt :
    ∀ x y z : List Nat, lexCompare x y = .lt → lexCompare y z = .lt →
      lexCompare x z = .lt := by
  intro x
  induction x with
  | nil =>
      intro y z hxy hyz
      cases y with
      | nil => cases hxy
      | cons b bs =>
          cases z with
          | nil => cases hyz
          | cons c cs => simp [lexCompare]
  | cons a as ih =>
      intro y z hxy hyz
      cases y with
      | nil => cases hxy
      | cons b bs =>
          cases z with
          | nil => cases hyz
          | cons c cs =>
              simp only [lexCompare] at hxy hyz ⊢
              rcases Nat.lt_trichotomy a b with hab | hab | hab
              · rcases Nat.lt_trichotomy b c with hbc | hbc | hbc
                · rw [if_pos (show a < c by omega)]
                · subst hbc
                  rw [if_pos hab]
                · rw [if_neg (show ¬ b < c by omega), if_pos hbc] at hyz
                  exact absurd hyz (by decide)
              · subst hab
                rw [if_neg (lt_irrefl a), if_neg (lt_irrefl a)] at hxy
                rcases Nat.lt_trichotomy a c with hac | hac | hac
                · rw [if_pos hac]
                · subst hac
                  rw [if_neg (lt_irrefl a), if_neg (lt_irrefl a)] at hyz ⊢
                  exact ih bs cs hxy hyz
                · rw [if_neg (show ¬ a < c by omega), if_pos hac] at hyz
                  exact absurd hyz (by decide)
              · rw [if_neg (show ¬ a < b by omega), if_pos hab] at hxy
                exact absurd hxy (by decide)

/-! ### Claim theorems -/

set_option maxRecDepth 10000

/-- C1 (code bug, evaluated at the failing input `U8 8`, canonical
encoding `[0x00, 0x08]`): the claim — and the security-analysis comment
and regression vectors of `data.rs` itself — call for a fixed-size
160-bit (20-byte) digest of the canonical encoding, but the declared
`Confidential` type is a newtype of `sha256d::Hash`, so the code conceals
to the 32-byte double-SHA256 digest of the encoding, which is not 20
bytes long and differs from the 20-byte hash160 digest of the encoding
that the documentation describes.  (Concealment is still a pure function
of the canonical encoding; only the digest construction diverges.) -/
theorem C1_code_divergence :
    commitConceal (Revealed.U8 8) =
      some [0x07, 0x24, 0x97, 0x9f, 0x43, 0x91, 0x84, 0xfb,
            0x24, 0x0a, 0x92, 0xd6, 0x8e, 0xd0, 0xd1, 0xfd,
            0x9f, 0x3f, 0xe7, 0x50, 0xa2, 0x37, 0xfc, 0xb2,
            0xa7, 0x54, 0xa7, 0xef, 0xe5, 0x57, 0x56, 0x65] ∧
    commitConceal (Revealed.U8 8) = some (confidentialHash [0x00, 0x08]) ∧
    (confidentialHash [0x00, 0x08]).length = 32 ∧
    (hash160 [0x00, 0x08]).length = 20 ∧
    commitConceal (Revealed.U8 8) ≠ some (hash160 [0x00, 0x08]) :=
  ⟨by decide, by decide, confidentialHash_length _, hash160_length _, by decide⟩

/-- C2: two `Revealed` values are equal exactly when their canonical strict
encodings are byte-identical — equality is computed on the serialized
bytes (for float variants these are the IEEE bit patterns, NaN payloads
included), never on native numeric values. -/
theorem C2_eq_iff_canonical_encodings_equal (a b : Revealed) (x y : List Nat)
    (ha : strictSerialize a = some x) (hb : strictSerialize b = some y) :
    revealedEq a b = some true ↔ x = y := by
  simp [revealedEq, ha, hb]

/-- Witness for C2: two 32-bit-float NaN values with the same bit pattern. -/
theorem C2_witness :
    strictSerialize (Revealed.F32 0x7fc00000) = some [0x32, 0x00, 0x00, 0xc0, 0x7f] ∧
    (revealedEq (Revealed.F32 0x7fc00000) (Revealed.F32 0x7fc00000) = some true ↔
      ([0x32, 0x00, 0x00, 0xc0, 0x7f] : List Nat) = [0x32, 0x00, 0x00, 0xc0, 0x7f]) :=
  ⟨by decide,
   C2_eq_iff_canonical_encodings_equal (Revealed.F32 0x7fc00000) (Revealed.F32 0x7fc00000)
     _ _ (by decide) (by decide)⟩

/-- C3: comparison of `Revealed` values is the lexicographic comparison of
their canonical strict encodings, also across variant types, and it is a
deterministic total order: every pair gets a defined `Ordering`, the
result is `.eq` exactly on byte-identical encodings, swapping the
arguments swaps the ordering, and strict less-than is transitive. -/
theorem C3_cmp_is_lexicographic_total_order (a b c : Revealed) (x y z : List Nat)
    (ha : strictSerialize a = some x) (hb : strictSerialize b = some y)
    (hc : strictSerialize c = some z) :
    revealedCmp a b = some (lexCompare x y) ∧
    (revealedCmp a b = some .eq ↔ x = y) ∧
    revealedCmp b a = some ((lexCompare x y).swap) ∧
    (revealedCmp a b = some .lt → revealedCmp b c = some .lt →
      revealedCmp a c = some .lt) := by
  have hab : revealedCmp a b = some (lexCompare x y) := by
    simp [revealedCmp, revealedPartialCmp, listPartialCmp, ha, hb]
  have hba : revealedCmp b a = some (lexCompare y x) := by
    simp [revealedCmp, revealedPartialCmp, listPartialCmp, ha, hb]
  have hbc2 : revealedCmp b c = some (lexCompare y z) := by
    simp [revealedCmp, revealedPartialCmp, listPartialCmp, hb, hc]
  have hac : revealedCmp a c = some (lexCompare x z) := by
    simp [revealedCmp, revealedPartialCmp, listPartialCmp, ha, hc]
  refine ⟨hab, ?_, ?_, ?_⟩
  · rw [hab]
    simp [lexCompare_eq_iff]
  · rw [hba, lexCompare_swap]
  · intro h1 h2
    rw [hab] at h1
    rw [hbc2] at h2
    rw [hac]
    simp only [Option.some.injEq] at h1 h2 ⊢
    exact lexCompare_trans_lt x y z h1 h2

/-- Witness for C3, across three distinct variant types
(`U8 1`, `I8 1`, `Bytes []`). -/
theorem C3_witness :
    strictSerialize (Revealed.U8 1) = some [0x00, 0x01] ∧
    strictSerialize (Revealed.I8 1) = some [0x10, 0x01] ∧
    strictSerialize (Revealed.Bytes []) = some [0xE0, 0x00, 0x00] ∧
    (revealedCmp (Revealed.U8 1) (Revealed.I8 1) =
        some (lexCompare [0x00, 0x01] [0x10, 0x01]) ∧
     (revealedCmp (Revealed.U8 1) (Revealed.I8 1) = some .eq ↔
        ([0x00, 0x01] : List Nat) = [0x10, 0x01]) ∧
     revealedCmp (Revealed.I8 1) (Revealed.U8 1) =
        some ((lexCompare [0x00, 0x01] [0x10, 0x01]).swap) ∧
     (revealedCmp (Revealed.U8 1) (Revealed.I8 1) = some .lt →
      revealedCmp (Revealed.I8 1) (Revealed.Bytes []) = some .lt →
      revealedCmp (Revealed.U8 1) (Revealed.Bytes []) = some .lt)) :=
  ⟨by decide, by decide, by decide,
   C3_cmp_is_lexicographic_total_order (Revealed.U8 1) (Revealed.I8 1) (Revealed.Bytes [])
     [0x00, 0x01] [0x10, 0x01] [0xE0, 0x00, 0x00] (by decide) (by decide) (by decide)⟩

/-- C5: decoding any input whose leading tag byte lies outside the
registered set of `Revealed` variant tags is a hard failure with the
unknown-tag decoding error, regardless of what follows the tag: the
input is never partially interpreted or coerced to a default value. -/
theorem C5_unknown_tag_hard_failure (tag : Nat) (rest : List Nat)
    (h : tag ∉ revealedTags) :
    strictDecode (tag :: rest) = .error (.unknownTag tag) ∧
    strictDeserialize (tag :: rest) = .error (.unknownTag tag) := by
  have h0 : tag ≠ 0x00 := fun he => h (by rw [he]; decide)
  have h1 : tag ≠ 0x01 := fun he => h (by rw [he]; decide)
  have h2 : tag ≠ 0x02 := fun he => h (by rw [he]; decide)
  have h3 : tag ≠ 0x03 := fun he => h (by rw [he]; decide)
  have h4 : tag ≠ 0x04 := fun he => h (by rw [he]; decide)
  have h5 : tag ≠ 0x05 := fun he => h (by rw [he]; decide)
  have h6 : tag ≠ 0x06 := fun he => h (by rw [he]; decide)
  have h7 : tag ≠ 0x07 := fun he => h (by rw [he]; decide)
  have h8 : tag ≠ 0x10 := fun he => h (by rw [he]; decide)
  have h9 : tag ≠ 0x11 := fun he => h (by rw [he]; decide)
  have h10 : tag ≠ 0x12 := fun he => h (by rw [he]; decide)
  have h11 : tag ≠ 0x13 := fun he => h (by rw [he]; decide)
  have h12 : tag ≠ 0x14 := fun he => h (by rw [he]; decide)
  have h13 : tag ≠ 0x15 := fun he => h (by rw [he]; decide)
  have h14 : tag ≠ 0x16 := fun he => h (by rw [he]; decide)
  have h15 : tag ≠ 0x17 := fun he => h (by rw [he]; decide)
  have h16 : tag ≠ 0x30 := fun he => h (by rw [he]; decide)
  have h17 : tag ≠ 0x31 := fun he => h (by rw [he]; decide)
  have h18 : tag ≠ 0x32 := fun he => h (by rw [he]; decide)
  have h19 : tag ≠ 0x33 := fun he => h (by rw [he]; decide)
  have h20 : tag ≠ 0x34 := fun he => h (by rw [he]; decide)
  have h21 : tag ≠ 0x35 := fun he => h (by rw [he]; decide)
  have h22 : tag ≠ 0x36 := fun he => h (by rw [he]; decide)
  have h23 : tag ≠ 0xE0 := fun he => h (by rw [he]; decide)
  have h24 : tag ≠ 0xEE := fun he => h (by rw [he]; decide)
  have h25 : tag ≠ 0xEF := fun he => h (by rw [he]; decide)
  have hd : strictDecode (tag :: rest) = .error (.unknownTag tag) := by
    simp only [strictDecode, if_neg h0, if_neg h1, if_neg h2, if_neg h3, if_neg h4, if_neg h5, if_neg h6, if_neg h7, if_neg h8, if_neg h9, if_neg h10, if_neg h11, if_neg h12, if_neg h13, if_neg h14, if_neg h15, if_neg h16, if_neg h17, if_neg h18, if_neg h19, if_neg h20, if_neg h21, if_neg h22, if_neg h23, if_neg h24, if_neg h25]
  exact ⟨hd, by simp [strictDeserialize, hd]⟩

/-- Witness for C5 at the garbage tag `0x96` used by the repository tests. -/
theorem C5_witness :
    (0x96 : Nat) ∉ revealedTags ∧
    (strictDecode (0x96 :: [0x08]) = .error (.unknownTag 0x96) ∧
     strictDeserialize (0x96 :: [0x08]) = .error (.unknownTag 0x96)) :=
  ⟨by decide, C5_unknown_tag_hard_failure 0x96 [0x08] (by decide)⟩

/-- C6 counterexample: concealment of the `Void` state does NOT follow the
generic hash scheme.  `commit_conceal` on `Void` returns the `Void` value
itself, whose commit encoding is empty (0 bytes), while the generic
scheme `Hash(canonical_encode(value))` yields a fixed-size digest
(32 bytes for the declared hash) — the two can never coincide. -/
theorem C6_counterexample :
    voidCommitConceal ⟨⟩ = ⟨⟩ ∧
    voidCommitEncode (voidCommitConceal ⟨⟩) = [] ∧
    (confidentialHash (voidStrictSerialize ⟨⟩)).length = 32 ∧
    voidCommitEncode (voidCommitConceal ⟨⟩) ≠ confidentialHash (voidStrictSerialize ⟨⟩) := by
  refine ⟨rfl, rfl, confidentialHash_length _, fun hEq => ?_⟩
  have hl := congrArg List.length hEq
  rw [confidentialHash_length] at hl
  simp [voidCommitEncode] at hl

/-- C6 amended: concealment of the `Void` (absent) state is the identity —
`commit_conceal` returns the `Void` value itself as its own confidential
commitment, and its commit encoding is empty; it does not apply the
generic `Hash(canonical_encode(value))` construction used for `Revealed`
data. -/
theorem C6_amended_void_conceal_identity (v : Void) :
    voidCommitConceal v = v ∧ voidCommitEncode (voidCommitConceal v) = [] :=
  ⟨rfl, rfl⟩

/-- C7 counterexample: the canonical encoding of a signed 8-bit value
carries tag byte `0x10` (as declared by the enum), not the `0x08` the
claim states. -/
theorem C7_counterexample :
    strictSerialize (Revealed.I8 8) = some [0x10, 0x08] ∧ (0x10 : Nat) ≠ 0x08 := by
  decide

/-- The per-variant tag-byte table, as the external-interface section
declares it — amended at the signed-integer entries to match the values
the enum declaration actually registers (`I8 = 0x10`, not `0x08`). -/
def declaredTag : Revealed → Nat
  | .U8 _ => 0x00
  | .U16 _ => 0x01
  | .U32 _ => 0x02
  | .U64 _ => 0x03
  | .U128 _ => 0x04
  | .U256 _ => 0x05
  | .U512 _ => 0x06
  | .U1024 _ => 0x07
  | .I8 _ => 0x10
  | .I16 _ => 0x11
  | .I32 _ => 0x12
  | .I64 _ => 0x13
  | .I128 _ => 0x14
  | .I256 _ => 0x15
  | .I512 _ => 0x16
  | .I1024 _ => 0x17
  | .F16B _ => 0x30
  | .F16 _ => 0x31
  | .F32 _ => 0x32
  | .F64 _ => 0x33
  | .F80 _ => 0x34
  | .F128 _ => 0x35
  | .F256 _ => 0x36
  | .Bytes _ => 0xE0
  | .AsciiString _ => 0xEE
  | .UnicodeString _ => 0xEF

/-- C7 amended: the canonical encoding of every `Revealed` value starts
with the tag byte of the declared table: unsigned 8-bit = `0x00`, signed
8-bit = `0x10`, 32-bit float = `0x32`, byte blob = `0xE0`, ASCII string
= `0xEE`, UTF-8 string = `0xEF` (and correspondingly for the remaining
variants). -/
theorem C7_amended_tag_table (v : Revealed) (bs : List Nat)
    (h : strictSerialize v = some bs) :
    bs.head? = some (declaredTag v) := by
  cases v <;>
    simp only [strictSerialize] at h <;>
    (try split_ifs at h) <;>
    (try cases h) <;>
    simp [declaredTag]

/-- Witness for the amended C7: the unsigned 8-bit value 8. -/
theorem C7_amended_witness :
    strictSerialize (Revealed.U8 8) = some [0x00, 0x08] ∧
    ([0x00, 0x08] : List Nat).head? = some (declaredTag (Revealed.U8 8)) :=
  ⟨by decide, C7_amended_tag_table (Revealed.U8 8) [0x00, 0x08] (by decide)⟩

/-- C8 (code bug, evaluated at the failing input `U8 8`): the first two
regression vectors hold — encoding `U8 8` yields exactly `[0x00, 0x08]`
and decoding an input led by the unregistered tag byte `0x96` fails with
the unknown-tag error — but the concealment vector does not: the
declared `sha256d`-based `Confidential` conceals `U8 8` to the 32-byte
double-SHA256 digest `07 24 97 9f ...` of the encoding, while the
claimed 20-byte digest `99 3c fd 01 ... bf 80` is the bitcoin hash160 of
the encoding (the construction the in-file comment and test vectors
document), which the code never produces. -/
theorem C8_code_divergence :
    strictSerialize (Revealed.U8 8) = some [0x00, 0x08] ∧
    strictDeserialize [0x96, 0x08] = .error (.unknownTag 0x96) ∧
    commitConceal (Revealed.U8 8) =
      some [0x07, 0x24, 0x97, 0x9f, 0x43, 0x91, 0x84, 0xfb,
            0x24, 0x0a, 0x92, 0xd6, 0x8e, 0xd0, 0xd1, 0xfd,
            0x9f, 0x3f, 0xe7, 0x50, 0xa2, 0x37, 0xfc, 0xb2,
            0xa7, 0x54, 0xa7, 0xef, 0xe5, 0x57, 0x56, 0x65] ∧
    hash160 [0x00, 0x08] =
      [0x99, 0x3c, 0xfd, 0x01, 0x69, 0x0e, 0xa0, 0xa8, 0xb2, 0x83,
       0x1e, 0xf0, 0x25, 0x36, 0xce, 0xed, 0x3e, 0x9b, 0xbf, 0x80] ∧
    commitConceal (Revealed.U8 8) ≠
      some [0x99, 0x3c, 0xfd, 0x01, 0x69, 0x0e, 0xa0, 0xa8, 0xb2, 0x83,
            0x1e, 0xf0, 0x25, 0x36, 0xce, 0xed, 0x3e, 0x9b, 0xbf, 0x80] :=
  ⟨by decide, by rfl, by decide, by decide, by decide⟩

/-- C9: every typed accessor of `Revealed` is total and never faults: it
returns `some` of the stored payload exactly when the value is of the
matching variant, and `none` for every other variant. -/
theorem C9_accessors_total_and_exact (v : Revealed) :
    (∀ x, Revealed.u8 v = some x ↔ v = Revealed.U8 x) ∧
    (∀ x, Revealed.u16 v = some x ↔ v = Revealed.U16 x) ∧
    (∀ x, Revealed.u32 v = some x ↔ v = Revealed.U32 x) ∧
    (∀ x, Revealed.u64 v = some x ↔ v = Revealed.U64 x) ∧
    (∀ x, Revealed.u128 v = some x ↔ v = Revealed.U128 x) ∧
    (∀ x, Revealed.u256 v = some x ↔ v = Revealed.U256 x) ∧
    (∀ x, Revealed.u512 v = some x ↔ v = Revealed.U512 x) ∧
    (∀ x, Revealed.u1024 v = some x ↔ v = Revealed.U1024 x) ∧
    (∀ x, Revealed.i8 v = some x ↔ v = Revealed.I8 x) ∧
    (∀ x, Revealed.i16 v = some x ↔ v = Revealed.I16 x) ∧
    (∀ x, Revealed.i32 v = some x ↔ v = Revealed.I32 x) ∧
    (∀ x, Revealed.i64 v = some x ↔ v = Revealed.I64 x) ∧
    (∀ x, Revealed.i128 v = some x ↔ v = Revealed.I128 x) ∧
    (∀ x, Revealed.i256 v = some x ↔ v = Revealed.I256 x) ∧
    (∀ x, Revealed.i512 v = some x ↔ v = Revealed.I512 x) ∧
    (∀ x, Revealed.i1024 v = some x ↔ v = Revealed.I1024 x) ∧
    (∀ x, Revealed.f16b v = some x ↔ v = Revealed.F16B x) ∧
    (∀ x, Revealed.f16 v = some x ↔ v = Revealed.F16 x) ∧
    (∀ x, Revealed.f32 v = some x ↔ v = Revealed.F32 x) ∧
    (∀ x, Revealed.f64 v = some x ↔ v = Revealed.F64 x) ∧
    (∀ x, Revealed.f80 v = some x ↔ v = Revealed.F80 x) ∧
    (∀ x, Revealed.f128 v = some x ↔ v = Revealed.F128 x) ∧
    (∀ x, Revealed.f256 v = some x ↔ v = Revealed.F256 x) ∧
    (∀ x, Revealed.bytes v = some x ↔ v = Revealed.Bytes x) ∧
    (∀ x, Revealed.ascii_string v = some x ↔ v = Revealed.AsciiString x) ∧
    (∀ x, Revealed.unicode_string v = some x ↔ v = Revealed.UnicodeString x) := by
  cases v <;> simp [Revealed.u8, Revealed.u16, Revealed.u32, Revealed.u64, Revealed.u128, Revealed.u256, Revealed.u512, Revealed.u1024, Revealed.i8, Revealed.i16, Revealed.i32, Revealed.i64, Revealed.i128, Revealed.i256, Revealed.i512, Revealed.i1024, Revealed.f16b, Revealed.f16, Revealed.f32, Revealed.f64, Revealed.f80, Revealed.f128, Revealed.f256, Revealed.bytes, Revealed.ascii_string, Revealed.unicode_string]

/-- C10: the ordering of `Revealed` is consistent with its equality: the
partial comparison always returns a defined `Ordering` (the `None`
fallback branch of `Ord::cmp` is unreachable), and the full comparison
returns `.eq` exactly when equality holds — both reduce to the same byte
comparison of canonical encodings. -/
theorem C10_ord_consistent_with_eq (a b : Revealed) (x y : List Nat)
    (ha : strictSerialize a = some x) (hb : strictSerialize b = some y) :
    revealedPartialCmp a b = some (some (lexCompare x y)) ∧
    (revealedCmp a b = some .eq ↔ revealedEq a b = some true) := by
  have hp : revealedPartialCmp a b = some (some (lexCompare x y)) := by
    simp [revealedPartialCmp, listPartialCmp, ha, hb]
  have hcmp : revealedCmp a b = some (lexCompare x y) := by
    simp [revealedCmp, revealedPartialCmp, listPartialCmp, ha, hb]
  have heq : revealedEq a b = some (decide (x = y)) := by
    simp [revealedEq, ha, hb]
  refine ⟨hp, ?_⟩
  rw [hcmp, heq]
  simp [lexCompare_eq_iff]

/-- Witness for C10 at `U8 8` and `U8 9`. -/
theorem C10_witness :
    strictSerialize (Revealed.U8 8) = some [0x00, 0x08] ∧
    strictSerialize (Revealed.U8 9) = some [0x00, 0x09] ∧
    (revealedPartialCmp (Revealed.U8 8) (Revealed.U8 9) =
        some (some (lexCompare [0x00, 0x08] [0x00, 0x09])) ∧
     (revealedCmp (Revealed.U8 8) (Revealed.U8 9) = some .eq ↔
        revealedEq (Revealed.U8 8) (Revealed.U8 9) = some true)) :=
  ⟨by decide, by decide,
   C10_ord_consistent_with_eq (Revealed.U8 8) (Revealed.U8 9)
     [0x00, 0x08] [0x00, 0x09] (by decide) (by decide)⟩

/-- Reduction of an `Except` bind on a success value. -/
@[simp] theorem exceptOkBind {ε α β : Type} (a : α) (f : α → Except ε β) :
    (Except.ok (ε := ε) a >>= f) = f a := rfl

/-- C4: for every representable value of every `Revealed` variant (the
payload satisfying the range/length invariants of its Rust type),
serialization succeeds and decoding the canonical encoding returns the
value unchanged: `decode(encode(v)) == v`. -/
theorem C4_decode_encode_roundtrip (v : Revealed) (h : wf v) :
    ∃ bs, strictSerialize v = some bs ∧ strictDeserialize bs = .ok v := by
  cases v with
  | U8 x =>
      refine ⟨_, rfl, ?_⟩
      have hb := readBytes_all (toLE 1 x) 1 (toLE_length 1 x)
      have hx : x < 2 ^ (8 * 1) := by simpa [wf] using h
      simp [strictDeserialize, strictDecode, hb, fromLE_toLE 1 x hx]
  | U16 x =>
      refine ⟨_, rfl, ?_⟩
      have hb := readBytes_all (toLE 2 x) 2 (toLE_length 2 x)
      have hx : x < 2 ^ (8 * 2) := by simpa [wf] using h
      simp [strictDeserialize, strictDecode, hb, fromLE_toLE 2 x hx]
  | U32 x =>
      refine ⟨_, rfl, ?_⟩
      have hb := readBytes_all (toLE 4 x) 4 (toLE_length 4 x)
      have hx : x < 2 ^ (8 * 4) := by simpa [wf] using h
      simp [strictDeserialize, strictDecode, hb, fromLE_toLE 4 x hx]
  | U64 x =>
      refine ⟨_, rfl, ?_⟩
      have hb := readBytes_all (toLE 8 x) 8 (toLE_length 8 x)
      have hx : x < 2 ^ (8 * 8) := by simpa [wf] using h
      simp [strictDeserialize, strictDecode, hb, fromLE_toLE 8 x hx]
  | U128 x =>
      refine ⟨_, rfl, ?_⟩
      have hb := readBytes_all (toLE 16 x) 16 (toLE_length 16 x)
      have hx : x < 2 ^ (8 * 16) := by simpa [wf] using h
      simp [strictDeserialize, strictDecode, hb, fromLE_toLE 16 x hx]
  | U256 x =>
      refine ⟨_, rfl, ?_⟩
      have hb := readBytes_all (toLE 32 x) 32 (toLE_length 32 x)
      have hx : x < 2 ^ (8 * 32) := by simpa [wf] using h
      simp [strictDeserialize, strictDecode, hb, fromLE_toLE 32 x hx]
  | U512 x =>
      refine ⟨_, rfl, ?_⟩
      have hb := readBytes_all (toLE 64 x) 64 (toLE_length 64 x)
      have hx : x < 2 ^ (8 * 64) := by simpa [wf] using h
      simp [strictDeserialize, strictDecode, hb, fromLE_toLE 64 x hx]
  | U1024 x =>
      refine ⟨_, rfl, ?_⟩
      have hb := readBytes_all (toLE 128 x) 128 (toLE_length 128 x)
      have hx : x < 2 ^ (8 * 128) := by simpa [wf] using h
      simp [strictDeserialize, strictDecode, hb, fromLE_toLE 128 x hx]
  | F16B x =>
      refine ⟨_, rfl, ?_⟩
      have hb := readBytes_all (toLE 2 x) 2 (toLE_length 2 x)
      have hx : x < 2 ^ (8 * 2) := by simpa [wf] using h
      simp [strictDeserialize, strictDecode, hb, fromLE_toLE 2 x hx]
  | F16 x =>
      refine ⟨_, rfl, ?_⟩
      have hb := readBytes_all (toLE 2 x) 2 (toLE_length 2 x)
      have hx : x < 2 ^ (8 * 2) := by simpa [wf] using h
      simp [strictDeserialize, strictDecode, hb, fromLE_toLE 2 x hx]
  | F32 x =>
      refine ⟨_, rfl, ?_⟩
      have hb := readBytes_all (toLE 4 x) 4 (toLE_length 4 x)
      have hx : x < 2 ^ (8 * 4) := by simpa [wf] using h
      simp [strictDeserialize, strictDecode, hb, fromLE_toLE 4 x hx]
  | F64 x =>
      refine ⟨_, rfl, ?_⟩
      have hb := readBytes_all (toLE 8 x) 8 (toLE_length 8 x)
      have hx : x < 2 ^ (8 * 8) := by simpa [wf] using h
      simp [strictDeserialize, strictDecode, hb, fromLE_toLE 8 x hx]
  | F80 x =>
      refine ⟨_, rfl, ?_⟩
      have hb := readBytes_all (toLE 10 x) 10 (toLE_length 10 x)
      have hx : x < 2 ^ (8 * 10) := by simpa [wf] using h
      simp [strictDeserialize, strictDecode, hb, fromLE_toLE 10 x hx]
  | F128 x =>
      refine ⟨_, rfl, ?_⟩
      have hb := readBytes_all (toLE 16 x) 16 (toLE_length 16 x)
      have hx : x < 2 ^ (8 * 16) := by simpa [wf] using h
      simp [strictDeserialize, strictDecode, hb, fromLE_toLE 16 x hx]
  | F256 x =>
      refine ⟨_, rfl, ?_⟩
      have hb := readBytes_all (toLE 32 x) 32 (toLE_length 32 x)
      have hx : x < 2 ^ (8 * 32) := by simpa [wf] using h
      simp [strictDeserialize, strictDecode, hb, fromLE_toLE 32 x hx]
  | I8 x =>
      obtain ⟨h1, h2⟩ : -(2 ^ (8 * 1 - 1) : Int) ≤ x ∧ x < 2 ^ (8 * 1 - 1) := by
        simpa [wf] using h
      refine ⟨_, rfl, ?_⟩
      have hb := readBytes_all (toLEInt 1 x) 1 (toLEInt_length 1 x)
      have hv := fromLEInt_toLEInt 1 x (by norm_num) h1 h2
      simp [strictDeserialize, strictDecode, hb, hv]
  | I16 x =>
      obtain ⟨h1, h2⟩ : -(2 ^ (8 * 2 - 1) : Int) ≤ x ∧ x < 2 ^ (8 * 2 - 1) := by
        simpa [wf] using h
      refine ⟨_, rfl, ?_⟩
      have hb := readBytes_all (toLEInt 2 x) 2 (toLEInt_length 2 x)
      have hv := fromLEInt_toLEInt 2 x (by norm_num) h1 h2
      simp [strictDeserialize, strictDecode, hb, hv]
  | I32 x =>
      obtain ⟨h1, h2⟩ : -(2 ^ (8 * 4 - 1) : Int) ≤ x ∧ x < 2 ^ (8 * 4 - 1) := by
        simpa [wf] using h
      refine ⟨_, rfl, ?_⟩
      have hb := readBytes_all (toLEInt 4 x) 4 (toLEInt_length 4 x)
      have hv := fromLEInt_toLEInt 4 x (by norm_num) h1 h2
      simp [strictDeserialize, strictDecode, hb, hv]
  | I64 x =>
      obtain ⟨h1, h2⟩ : -(2 ^ (8 * 8 - 1) : Int) ≤ x ∧ x < 2 ^ (8 * 8 - 1) := by
        simpa [wf] using h
      refine ⟨_, rfl, ?_⟩
      have hb := readBytes_all (toLEInt 8 x) 8 (toLEInt_length 8 x)
      have hv := fromLEInt_toLEInt 8 x (by norm_num) h1 h2
      simp [strictDeserialize, strictDecode, hb, hv]
  | I128 x =>
      obtain ⟨h1, h2⟩ : -(2 ^ (8 * 16 - 1) : Int) ≤ x ∧ x < 2 ^ (8 * 16 - 1) := by
        simpa [wf] using h
      refine ⟨_, rfl, ?_⟩
      have hb := readBytes_all (toLEInt 16 x) 16 (toLEInt_length 16 x)
      have hv := fromLEInt_toLEInt 16 x (by norm_num) h1 h2
      simp [strictDeserialize, strictDecode, hb, hv]
  | I256 x =>
      obtain ⟨h1, h2⟩ : -(2 ^ (8 * 32 - 1) : Int) ≤ x ∧ x < 2 ^ (8 * 32 - 1) := by
        simpa [wf] using h
      refine ⟨_, rfl, ?_⟩
      have hb := readBytes_all (toLEInt 32 x) 32 (toLEInt_length 32 x)
      have hv := fromLEInt_toLEInt 32 x (by norm_num) h1 h2
      simp [strictDeserialize, strictDecode, hb, hv]
  | I512 x =>
      obtain ⟨h1, h2⟩ : -(2 ^ (8 * 64 - 1) : Int) ≤ x ∧ x < 2 ^ (8 * 64 - 1) := by
        simpa [wf] using h
      refine ⟨_, rfl, ?_⟩
      have hb := readBytes_all (toLEInt 64 x) 64 (toLEInt_length 64 x)
      have hv := fromLEInt_toLEInt 64 x (by norm_num) h1 h2
      simp [strictDeserialize, strictDecode, hb, hv]
  | I1024 x =>
      obtain ⟨h1, h2⟩ : -(2 ^ (8 * 128 - 1) : Int) ≤ x ∧ x < 2 ^ (8 * 128 - 1) := by
        simpa [wf] using h
      refine ⟨_, rfl, ?_⟩
      have hb := readBytes_all (toLEInt 128 x) 128 (toLEInt_length 128 x)
      have hv := fromLEInt_toLEInt 128 x (by norm_num) h1 h2
      simp [strictDeserialize, strictDecode, hb, hv]
  | Bytes bs =>
      obtain ⟨hbb, hlen⟩ := h
      refine ⟨0xE0 :: (toLE 2 bs.length ++ bs), ?_, ?_⟩
      · simp [strictSerialize, hlen]
      · have h2b := readBytesSplit (toLE 2 bs.length) bs 2 (toLE_length 2 bs.length)
        have hlenv : fromLE (toLE 2 bs.length) = bs.length :=
          fromLE_toLE 2 bs.length (by norm_num; omega)
        have hall := readBytes_all bs bs.length rfl
        simp [strictDeserialize, strictDecode, h2b, hlenv, hall]
  | AsciiString cs =>
      obtain ⟨hbb, hlen⟩ := h
      refine ⟨0xEE :: (toLE 2 cs.length ++ cs), ?_, ?_⟩
      · simp [strictSerialize, hlen]
      · have h2b := readBytesSplit (toLE 2 cs.length) cs 2 (toLE_length 2 cs.length)
        have hlenv : fromLE (toLE 2 cs.length) = cs.length :=
          fromLE_toLE 2 cs.length (by norm_num; omega)
        have hall := readBytes_all cs cs.length rfl
        simp [strictDeserialize, strictDecode, h2b, hlenv, hall]
        rw [if_pos hbb]
  | UnicodeString us =>
      obtain ⟨hu, hlen⟩ := h
      refine ⟨0xEF :: (toLE 2 us.length ++ us), ?_, ?_⟩
      · simp [strictSerialize, hlen]
      · have h2b := readBytesSplit (toLE 2 us.length) us 2 (toLE_length 2 us.length)
        have hlenv : fromLE (toLE 2 us.length) = us.length :=
          fromLE_toLE 2 us.length (by norm_num; omega)
        have hall := readBytes_all us us.length rfl
        simp [strictDeserialize, strictDecode, h2b, hlenv, hall, hu]

/-- Witness for C4 at `U8 8`. -/
theorem C4_witness :
    wf (Revealed.U8 8) ∧
    ∃ bs, strictSerialize (Revealed.U8 8) = some bs ∧
      strictDeserialize bs = .ok (Revealed.U8 8) :=
  ⟨by simp [wf], C4_decode_encode_roundtrip (Revealed.U8 8) (by simp [wf])⟩

end RgbCore
